import Mathlib

/-!
# ClawBowl orchestrator — verification of the core services

Shallow embedding of the orchestrator's core services,
translated from the Python sources:

* `backend/app/services/proxy.py` — request-aware SSE proxy
  (attachment extraction and rebuild, date context injection,
  streaming turn-boundary machine, retry with friendly errors,
  workspace diff);
* `backend/app/services/instance_manager.py` — idle reaper and
  cron-job protection, config re-sync;
* `backend/app/services/config_generator.py` — config rendering and
  hooks-token read-back;
* `backend/app/services/alert_monitor.py` — alert journal tailing;
* `backend/app/services/port_allocator.py` — port allocation.

Machine floats (`time.monotonic()`, `st_mtime`) are modelled as `ℚ`;
byte strings as `List ℕ`; Python `dict`/`list` JSON values as the
inductive `Jv`.  External effects (the filesystem snapshots, the two
upstream HTTP attempts, the `uuid4` name supply, the current date) are
passed in as explicit inputs.
-/

namespace ClawBowl

/-! ## String helpers

`strContains hay needle` is Python's `needle in hay` on `str`. -/

def listContainsSub (needle : List Char) : List Char → Bool
  | [] => needle.isEmpty
  | c :: t => needle.isPrefixOf (c :: t) || listContainsSub needle t

def strContains (hay needle : String) : Bool :=
  listContainsSub needle.data hay.data

/-- Python `str.isspace` on the ASCII whitespace characters (the
whitespace actually stripped in the sources modelled here). -/
def pySpace (c : Char) : Bool :=
  c == ' ' || c == '\t' || c == '\n' || c == '\r' || c == '\x0b' || c == '\x0c'

def pyStripList (cs : List Char) : List Char :=
  ((cs.dropWhile pySpace).reverse.dropWhile pySpace).reverse

/-- Python `str.strip()`. -/
def pyStrip (s : String) : String :=
  String.mk (pyStripList s.data)

/-- Python `str.startswith`. -/
def strStartsWith (s p : String) : Bool :=
  p.data.isPrefixOf s.data

/-- Python `str.lower()` (ASCII range). -/
def strLower (s : String) : String :=
  String.mk (s.data.map Char.toLower)

/-- Python `"sep".join(xs)`. -/
def joinSep (sep : String) : List String → String
  | [] => ""
  | [x] => x
  | x :: y :: rest => x ++ sep ++ joinSep sep (y :: rest)

def splitListOnAux (sep : Char) : List Char → List Char → List (List Char)
  | [], acc => [acc.reverse]
  | c :: rest, acc =>
    if c = sep then acc.reverse :: splitListOnAux sep rest []
    else splitListOnAux sep rest (c :: acc)

/-- Split a character list at every occurrence of `sep` (the separator
is dropped); the final segment is always present, so the result is
non-empty. -/
def splitListOn (sep : Char) (cs : List Char) : List (List Char) :=
  splitListOnAux sep cs []

/-! ## Base64 decoding

Embeds `base64.b64decode` (non-strict mode): characters outside the
standard alphabet are discarded, everything after the first padding
character is ignored, and the remaining length must be consistent with
the padding (`n % 4 = 1`, or missing padding, is an error).
Bytes are `ℕ` values below 256. -/

def b64Val (c : Char) : Option ℕ :=
  if 'A' ≤ c ∧ c ≤ 'Z' then some (c.toNat - 65)
  else if 'a' ≤ c ∧ c ≤ 'z' then some (c.toNat - 97 + 26)
  else if '0' ≤ c ∧ c ≤ '9' then some (c.toNat - 48 + 52)
  else if c = '+' then some 62
  else if c = '/' then some 63
  else none

def decodeSextets : List ℕ → List ℕ
  | a :: b :: c :: d :: rest =>
      (a * 4 + b / 16) :: ((b % 16) * 16 + c / 4) :: ((c % 4) * 64 + d)
        :: decodeSextets rest
  | [a, b, c] => [a * 4 + b / 16, (b % 16) * 16 + c / 4]
  | [a, b] => [a * 4 + b / 16]
  | _ => []

def b64decode (s : String) : Option (List ℕ) :=
  let all := s.data.filter (fun c => (b64Val c).isSome || c == '=')
  let body := all.takeWhile (fun c => c ≠ '=')
  let pads := ((all.drop body.length).takeWhile (fun c => c == '=')).length
  let vals := body.filterMap b64Val
  if vals.length % 4 = 0 ∧ pads = 0 then some (decodeSextets vals)
  else if vals.length % 4 = 3 ∧ 1 ≤ pads then some (decodeSextets vals)
  else if vals.length % 4 = 2 ∧ 2 ≤ pads then some (decodeSextets vals)
  else none

/-! ## JSON values

Model of the values produced by `json.loads`: numbers are restricted
to integers (the alert lines exercised here carry no floats). -/

inductive Jv where
  | null : Jv
  | bool (b : Bool) : Jv
  | num (n : ℤ) : Jv
  | str (s : String) : Jv
  | arr (xs : List Jv) : Jv
  | obj (fields : List (String × Jv)) : Jv

/-- First-match field lookup, i.e. Python `dict.get` on parsed JSON
objects (keys are unique after `json.loads`). -/
def lookupField (fields : List (String × Jv)) (k : String) : Option Jv :=
  match fields with
  | [] => none
  | (k', v) :: rest => if k' = k then some v else lookupField rest k

/-- Python truthiness of a JSON value (`bool(x)` after `json.loads`). -/
def truthy : Jv → Bool
  | .null => false
  | .bool b => b
  | .num n => n ≠ 0
  | .str s => s ≠ ""
  | .arr xs => ¬xs.isEmpty
  | .obj fs => ¬fs.isEmpty

/-! ## A small JSON text parser

Fuel-indexed recursive-descent parser for the JSON subset appearing in
alert journal lines: `null`, booleans, integers, strings with `\"`,
`\\`, `\/`, `\n`, `\r`, `\t` escapes, arrays and objects.  Scientific
floats and `\u` escapes are outside the modelled subset. -/

def isJsonWs (c : Char) : Bool :=
  c == ' ' || c == '\t' || c == '\n' || c == '\r'

def skipWs (cs : List Char) : List Char :=
  cs.dropWhile isJsonWs

def parseJsonString : List Char → Option (String × List Char)
  | [] => none
  | '"' :: rest => go rest []
  | _ => none
where
  go : List Char → List Char → Option (String × List Char)
    | [], _ => none
    | '"' :: rest, acc => some (String.mk acc.reverse, rest)
    | '\\' :: e :: rest, acc =>
        match e with
        | '"' => go rest ('"' :: acc)
        | '\\' => go rest ('\\' :: acc)
        | '/' => go rest ('/' :: acc)
        | 'n' => go rest ('\n' :: acc)
        | 'r' => go rest ('\r' :: acc)
        | 't' => go rest ('\t' :: acc)
        | _ => none
    | '\\' :: [], _ => none
    | c :: rest, acc => go rest (c :: acc)

def digitsToNat (ds : List Char) : ℕ :=
  ds.foldl (fun acc c => acc * 10 + (c.toNat - 48)) 0

def parseJsonInt (cs : List Char) : Option (ℤ × List Char) :=
  let (neg, cs') := match cs with
    | '-' :: t => (true, t)
    | _ => (false, cs)
  let ds := cs'.takeWhile Char.isDigit
  let rest := cs'.dropWhile Char.isDigit
  if ds.isEmpty then none
  else
    -- a '.', 'e' or 'E' right after the digits would be a float: outside
    -- the modelled subset, treated as a parse failure
    match rest with
    | '.' :: _ => none
    | 'e' :: _ => none
    | 'E' :: _ => none
    | _ =>
      let n : ℤ := digitsToNat ds
      some (if neg then -n else n, rest)

mutual

def parseJvFuel : ℕ → List Char → Option (Jv × List Char)
  | 0, _ => none
  | Nat.succ fuel, cs =>
    match skipWs cs with
    | 'n' :: 'u' :: 'l' :: 'l' :: rest => some (.null, rest)
    | 't' :: 'r' :: 'u' :: 'e' :: rest => some (.bool true, rest)
    | 'f' :: 'a' :: 'l' :: 's' :: 'e' :: rest => some (.bool false, rest)
    | '"' :: rest =>
        match parseJsonString ('"' :: rest) with
        | some (s, r) => some (.str s, r)
        | none => none
    | '[' :: rest =>
        (match skipWs rest with
         | ']' :: r => some (.arr [], r)
         | other =>
            match parseJvItems fuel other with
            | some (xs, r) => some (.arr xs, r)
            | none => none)
    | '{' :: rest =>
        (match skipWs rest with
         | '}' :: r => some (.obj [], r)
         | other =>
            match parseJvFields fuel other with
            | some (fs, r) => some (.obj fs, r)
            | none => none)
    | other =>
        match parseJsonInt other with
        | some (n, r) => some (.num n, r)
        | none => none

def parseJvItems : ℕ → List Char → Option (List Jv × List Char)
  | 0, _ => none
  | Nat.succ fuel, cs =>
    match parseJvFuel fuel cs with
    | none => none
    | some (v, rest) =>
      match skipWs rest with
      | ',' :: r =>
          match parseJvItems fuel r with
          | some (xs, r') => some (v :: xs, r')
          | none => none
      | ']' :: r => some ([v], r)
      | _ => none

def parseJvFields : ℕ → List Char → Option (List (String × Jv) × List Char)
  | 0, _ => none
  | Nat.succ fuel, cs =>
    match parseJsonString (skipWs cs) with
    | none => none
    | some (k, rest) =>
      match skipWs rest with
      | ':' :: r =>
        (match parseJvFuel fuel r with
         | none => none
         | some (v, rest') =>
           match skipWs rest' with
           | ',' :: r' =>
               match parseJvFields fuel r' with
               | some (fs, r'') => some ((k, v) :: fs, r'')
               | none => none
           | '}' :: r' => some ([(k, v)], r')
           | _ => none)
      | _ => none

end

/-- `json.loads` on one line of text: parse one value and require only
whitespace to remain. -/
def parseJson (s : String) : Option Jv :=
  match parseJvFuel (s.length + 1) s.data with
  | some (v, rest) => if (skipWs rest).isEmpty then some v else none
  | none => none

/-! ## Chat message model (`proxy.py`)

Inbound messages (`messages: list[dict]`): `role` is the message's
`"role"` value (`""` when missing), `content` is either a plain string,
a structured list of parts, or anything else (`other`, covering a
missing key and non-str/non-list values). -/

inductive Part where
  | text (s : String)
  | imageUrl (url : String)
  | filePart (filename : Option String) (data : String)
  | otherDict (ptype : String)
  | nonDict
deriving DecidableEq, Repr

inductive Content where
  | str (s : String)
  | parts (ps : List Part)
  | other
deriving DecidableEq, Repr

structure Msg where
  role : String
  content : Content
deriving DecidableEq, Repr

/-- The last message with `role == "user"` (the backwards scan at the
top of `_extract_attachments`). -/
def lastUser (msgs : List Msg) : Option Msg :=
  msgs.reverse.find? (fun m => m.role == "user")

/-- Characters before the first `,` of a data URL (`url.split(",", 1)[0]`). -/
def beforeComma (s : String) : String :=
  String.mk (s.data.takeWhile (fun c => c ≠ ','))

/-- Characters after the first `,` of a data URL (`url.split(",", 1)[1]`). -/
def afterComma (s : String) : String :=
  String.mk ((s.data.dropWhile (fun c => c ≠ ',')).drop 1)

/-- One pass of `_extract_attachments` over the parts of the last user
message.  `names` is the `uuid.uuid4().hex[:12]` supply and `idx` the
number of names consumed so far; `uuid4` runs once per data-URL image
part that splits at a comma (even when the base64 payload then fails to
decode) and once per `file` part (Python evaluates the
`part.get("filename", ...)` default eagerly). -/
def extractParts (names : ℕ → String) : ℕ → List Part → List (String × List ℕ) × ℕ
  | idx, [] => ([], idx)
  | idx, p :: rest =>
    match p with
    | .imageUrl url =>
      if strStartsWith url "data:" then
        if strContains url "," then
          let header := beforeComma url
          let b64data := afterComma url
          let ext :=
            if strContains header "png" then "png"
            else if strContains header "gif" then "gif"
            else if strContains header "webp" then "webp"
            else "jpg"
          let filename := names idx ++ "." ++ ext
          match b64decode b64data with
          | some fileBytes =>
            let (r, idx') := extractParts names (idx + 1) rest
            ((filename, fileBytes) :: r, idx')
          | none => extractParts names (idx + 1) rest
        else
          -- `header, b64data = url.split(",", 1)` raises ValueError
          -- before the uuid is drawn; the part is dropped with a warning
          extractParts names idx rest
      else extractParts names idx rest
    | .filePart fnameOpt data =>
      let dflt := names idx ++ ".bin"
      let filename := fnameOpt.getD dflt
      match b64decode data with
      | some fileBytes =>
        let (r, idx') := extractParts names (idx + 1) rest
        ((filename, fileBytes) :: r, idx')
      | none => extractParts names (idx + 1) rest
    | _ => extractParts names idx rest

/-- `_extract_attachments`: returns the (unchanged) messages, the
decoded attachments of the last user message, the `has_attachments`
flag, and the advanced name-supply index. -/
def extract_attachments (names : ℕ → String) (idx : ℕ) (msgs : List Msg) :
    List Msg × List (String × List ℕ) × Bool × ℕ :=
  match lastUser msgs with
  | none => (msgs, [], false, idx)
  | some m =>
    match m.content with
    | .parts ps =>
      let (atts, idx') := extractParts names idx ps
      if atts.isEmpty then (msgs, [], false, idx')
      else (msgs, atts, true, idx')
    | _ => (msgs, [], false, idx)

/-- Path-separator sanitization in `_save_attachments_to_workspace`:
`filename.replace("/", "_").replace("\\", "_")` (both patterns are
single characters, so per-character replacement is exact). -/
def sanitizeName (s : String) : String :=
  String.mk (s.data.map (fun c => if c = '/' ∨ c = '\\' then '_' else c))

/-- `_save_attachments_to_workspace`: the relative paths returned, in
attachment order. -/
def save_attachments_to_workspace (atts : List (String × List ℕ)) : List String :=
  atts.map (fun a => "media/inbound/" ++ sanitizeName a.1)

/-- The workspace files written by `_save_attachments_to_workspace`,
as `(relative path, bytes)` pairs. -/
def savedInboundFiles (atts : List (String × List ℕ)) : List (String × List ℕ) :=
  atts.map (fun a => ("media/inbound/" ++ sanitizeName a.1, a.2))

/-- Is this part counted as an attachment by
`_rebuild_messages_with_file_refs` (`p.get("type") in ("image_url", "file")`)? -/
def isAttachmentPart : Part → Bool
  | .imageUrl _ => true
  | .filePart _ _ => true
  | _ => false

/-- `_rebuild_messages_with_file_refs`: walk the messages front to
back; the first user message with list content containing an
attachment-typed part is replaced by the file-reference string, all
later messages pass through untouched (the `replaced` flag). -/
def rebuildGo (paths : List String) : List Msg → Bool → List Msg
  | [], _ => []
  | m :: rest, replaced =>
    if m.role ≠ "user" ∨ replaced then m :: rebuildGo paths rest replaced
    else
      match m.content with
      | .parts ps =>
        if ps.any isAttachmentPart then
          let texts := ps.filterMap (fun p =>
            match p with
            | .text s => some (pyStrip s)
            | _ => none)
          let userText := joinSep "\n" (texts.filter (fun t => t ≠ ""))
          let fileRefs := joinSep "\n"
            (paths.map (fun p => "[用户发送了文件: " ++ p ++ "]"))
          let combined := if userText = "" then fileRefs
            else fileRefs ++ "\n\n" ++ userText
          ⟨m.role, .str combined⟩ :: rebuildGo paths rest true
        else m :: rebuildGo paths rest replaced
      | _ => m :: rebuildGo paths rest replaced

def rebuild_messages_with_file_refs (msgs : List Msg) (paths : List String) : List Msg :=
  rebuildGo paths msgs false

/-- `_preprocess_attachments`: returns the forwarded messages together
with the files written to `workspace/media/inbound/`. -/
def preprocess_attachments (names : ℕ → String) (idx : ℕ) (msgs : List Msg) :
    List Msg × List (String × List ℕ) :=
  let r := extract_attachments names idx msgs
  if r.2.2.1 then
    let paths := save_attachments_to_workspace r.2.1
    (rebuild_messages_with_file_refs r.1 paths, savedInboundFiles r.2.1)
  else (r.1, [])

/-! ## Date context injection (`_inject_date_context`)

The wall clock is passed in as the rendered `date_str`, `weekday` and
numeric year. -/

def dateSystemMsg (dateStr weekday : String) (year : ℕ) : Msg :=
  ⟨"system",
   .str ("IMPORTANT: Today is " ++ dateStr ++ " (" ++ weekday ++ "), year "
     ++ toString year ++ ". Always use " ++ toString year
     ++ " as the current year for any time calculations.")⟩

def dateTagMsg (dateStr : String) (year : ℕ) (m : Msg) : Msg :=
  match m.content with
  | .str c =>
    if strContains c (toString year) then m
    else ⟨m.role, .str (c ++ "\n\n[System note: current date is " ++ dateStr
      ++ ", year " ++ toString year ++ "]")⟩
  | _ => m

/-- Backwards scan for the last user message (on the reversed list): the
first user message found is date-tagged, then the loop breaks. -/
def tagLastUserRev (dateStr : String) (year : ℕ) : List Msg → List Msg
  | [] => []
  | m :: rest =>
    if m.role == "user" then dateTagMsg dateStr year m :: rest
    else m :: tagLastUserRev dateStr year rest

def inject_date_context (dateStr weekday : String) (year : ℕ) (msgs : List Msg) :
    List Msg :=
  dateSystemMsg dateStr weekday year ::
    ((tagLastUserRev dateStr year msgs.reverse).reverse)

/-- The message list actually forwarded to the sandbox gateway by both
proxy entry points: attachment preprocessing then date injection. -/
def forwardedMessages (names : ℕ → String) (idx : ℕ) (dateStr weekday : String)
    (year : ℕ) (inbound : List Msg) : List Msg :=
  inject_date_context dateStr weekday year
    (preprocess_attachments names idx inbound).1

/-! ## Error classification and friendly messages (`proxy.py`)

Exceptions raised by the upstream call are modelled by `ExcKind`; the
`generic` constructor carries `str(exc)` for the substring fallback in
`_classify_error`. -/

inductive ExcKind where
  | connectError
  | connectTimeout
  | readTimeout
  | readError
  | httpStatus (code : ℕ)
  | generic (msg : String)
deriving DecidableEq, Repr

def classify_error : ExcKind → String
  | .connectError => "connect"
  | .connectTimeout => "timeout"
  | .readTimeout => "read"
  | .readError => "read"
  | .httpStatus code => if 500 ≤ code then "server" else "unknown"
  | .generic msg =>
    let m := strLower msg
    if strContains m "timeout" || strContains m "timed out" then "timeout"
    else if strContains m "connect" || strContains m "connection" then "connect"
    else "unknown"

/-- `_ERROR_MESSAGES.get(category, _ERROR_MESSAGES["unknown"])`. -/
def errorMessage : String → String
  | "connect" => "网络连接异常，正在重试..."
  | "timeout" => "AI 响应超时，请稍后重试"
  | "read" => "网络波动，数据读取中断"
  | "server" => "AI 服务暂时繁忙，请稍后再试"
  | _ => "出了一点小问题，请稍后重试"

def filteredMessage : String :=
  "该内容暂时无法处理，已自动清理相关对话记录，请换个话题继续。"

/-! ## Workspace snapshots and diff -/

/-- A workspace snapshot `{relative_path: (size, mtime)}`; `st_mtime`
floats become `ℚ`. -/
def Snapshot : Type := List (String × ℕ × ℚ)

def snapshotLookup : List (String × ℕ × ℚ) → String → Option (ℕ × ℚ)
  | [], _ => none
  | (p, sz, mt) :: rest, q => if p = q then some (sz, mt) else snapshotLookup rest q

/-- `Path(rel_path).name`: the last `/`-separated component. -/
def pathName (rel : String) : String :=
  String.mk ((splitListOn '/' rel.data).getLastD rel.data)

structure FileInfo where
  name : String
  path : String
  size : ℕ
  type : String
deriving DecidableEq, Repr

/-- `mimetypes.guess_type` restricted to the extensions exercised in
this development; unlisted extensions map to `none` and hence to
`application/octet-stream` in `_diff_workspace`. -/
def guessMime (name : String) : Option String :=
  if ¬strContains name "." then none
  else
    match String.mk ((splitListOn '.' name.data).getLastD []) with
    | "png" => some "image/png"
    | "jpg" => some "image/jpeg"
    | "jpeg" => some "image/jpeg"
    | "gif" => some "image/gif"
    | "webp" => some "image/webp"
    | "txt" => some "text/plain"
    | "json" => some "application/json"
    | "pdf" => some "application/pdf"
    | "csv" => some "text/csv"
    | "html" => some "text/html"
    | _ => none

/-- `_diff_workspace`: every path of `after` whose `(size, mtime)` is
new or changed, in `after`'s order. -/
def diff_workspace (before after : List (String × ℕ × ℚ)) : List FileInfo :=
  after.filterMap (fun e =>
    let relPath := e.1
    let size := e.2.1
    let mtime := e.2.2
    match snapshotLookup before relPath with
    | some prev =>
      if prev = (size, mtime) then none
      else some ⟨pathName relPath, relPath, size,
        (guessMime (pathName relPath)).getD "application/octet-stream"⟩
    | none => some ⟨pathName relPath, relPath, size,
        (guessMime (pathName relPath)).getD "application/octet-stream"⟩)

/-! ## SSE stream shaping (`proxy_chat_stream`)

Upstream SSE lines are modelled after the parse outcomes of the loop
body: `done` is the literal `data: [DONE]` line; `blank` a line that is
empty after `strip()`; `nonData` a non-empty line without the `data: `
prefix; `badJson` a `data: ` line whose payload fails `json.loads`;
`noChoices` a parsed chunk with an empty `choices` list; `chunk` a
parsed chunk, carrying `choices[0].delta`, `choices[0].finish_reason`
and the `time.monotonic()` reading taken while the line is processed
(only the content path samples the clock). -/

structure ToolCall where
  name : String
deriving DecidableEq, Repr

structure SseDelta where
  toolCalls : List ToolCall
  content : Option String
deriving DecidableEq, Repr

inductive UpLine where
  | done
  | blank
  | nonData (raw : String)
  | badJson (raw : String)
  | noChoices (raw : String)
  | chunk (delta : SseDelta) (finishReason : Option String) (ts : ℚ)
deriving DecidableEq, Repr

/-- One SSE event emitted to the client.  `_make_error_chunk` emits a
content event with `finish_reason: "stop"` followed by the sentinel on
one wire write; it is modelled as the two events the client parses. -/
inductive Out where
  | thinking (s : String)
  | content (s : String) (filtered : Bool)
  | file (f : FileInfo)
  | passthrough (raw : String)
  | done
deriving DecidableEq, Repr

/-- The local variables of `proxy_chat_stream`, initialized before the
retry loop (so they persist across the two attempts). -/
structure StreamState where
  seenTools : List String
  contentBuf : List String
  thinkingEmitted : Bool
  lastContentTs : ℚ
  turnCount : ℕ
  chunkCount : ℕ
  thinkingBatch : List String
  thinkingBatchChars : ℕ
deriving DecidableEq, Repr

def initStreamState : StreamState :=
  ⟨[], [], false, 0, 1, 0, [], 0⟩

/-- `_TOOL_STATUS_MAP.get(tool_name, f"正在执行 {tool_name}...")`. -/
def toolStatus (name : String) : String :=
  match name with
  | "image" => "正在分析图片..."
  | "web_search" => "正在搜索网页..."
  | "web_fetch" => "正在读取网页..."
  | "read" => "正在读取文件..."
  | "write" => "正在写入文件..."
  | "edit" => "正在编辑文件..."
  | "exec" => "正在执行命令..."
  | "process" => "正在处理任务..."
  | "cron" => "正在设置定时任务..."
  | "memory" => "正在检索记忆..."
  | _ => "正在执行 " ++ name ++ "..."

/-- The `for tc in tool_calls` loop: first occurrence of a non-empty
tool name emits one thinking status line and marks `thinking_emitted`. -/
def processTools (seen : List String) (emitted : Bool) :
    List ToolCall → List String × Bool × List Out
  | [] => (seen, emitted, [])
  | tc :: rest =>
    if tc.name ≠ "" ∧ tc.name ∉ seen then
      let pre := if emitted then "\n" else ""
      let r := processTools (seen ++ [tc.name]) true rest
      (r.1, r.2.1, Out.thinking (pre ++ toolStatus tc.name ++ "\n") :: r.2.2)
    else processTools seen emitted rest

/-- `if thinking_batch: yield ...; thinking_batch.clear();
thinking_batch_chars = 0` (the form used at turn boundaries and on
finish reasons). -/
def flushThinking (s : StreamState) : StreamState × List Out :=
  if s.thinkingBatch.isEmpty then (s, [])
  else ({ s with thinkingBatch := [], thinkingBatchChars := 0 },
        [Out.thinking (String.join s.thinkingBatch)])

def thinkingBatchLimit : ℕ := 80

def turnGapSeconds : ℚ := 3

/-- The `if delta.get("tool_calls"):` block: run the tool loop when the
list is non-empty. -/
def toolsStep (s : StreamState) (toolCalls : List ToolCall) :
    StreamState × List Out :=
  if toolCalls.isEmpty then (s, [])
  else
    let r := processTools s.seenTools s.thinkingEmitted toolCalls
    ({ s with seenTools := r.1, thinkingEmitted := r.2.1 }, r.2.2)

/-- The common turn-boundary block (the temporal-gap branch and the
`finish_reason == "tool_calls"` branch are textually identical): flush
the thinking batch, clear the content buffer, increment `turn_count`,
and emit the `"\n\n"` thinking separator only when `thinking_emitted`
is already set. -/
def turnBoundary (s : StreamState) : StreamState × List Out :=
  let fl := flushThinking s
  let sB := { fl.1 with contentBuf := [], turnCount := fl.1.turnCount + 1 }
  (sB, fl.2 ++ (if sB.thinkingEmitted then [Out.thinking "\n\n"] else []))

/-- The `if content_text:` body for a truthy (non-empty) text: detect
an implicit turn boundary when the interarrival gap exceeds the
threshold, record the arrival time, buffer the text, and flush the
coalesced thinking batch once it reaches 80 characters. -/
def contentStep (s : StreamState) (text : String) (ts : ℚ) :
    StreamState × List Out :=
  let gr :=
    if 0 < s.lastContentTs ∧ turnGapSeconds < ts - s.lastContentTs then
      turnBoundary s
    else (s, [])
  let sC := { gr.1 with
    lastContentTs := ts
    contentBuf := gr.1.contentBuf ++ [text]
    thinkingBatch := gr.1.thinkingBatch ++ [text]
    thinkingBatchChars := gr.1.thinkingBatchChars + text.length }
  if thinkingBatchLimit ≤ sC.thinkingBatchChars then
    ({ sC with
        thinkingBatch := []
        thinkingBatchChars := 0
        thinkingEmitted := true },
     gr.2 ++ [Out.thinking (String.join sC.thinkingBatch)])
  else (sC, gr.2)

/-- The protocol-marker block: `finish_reason == "tool_calls"` is a
turn boundary; `finish_reason == "stop"` flushes thinking and emits the
buffered turn (stripped) as the final `delta.content`. -/
def finishStep (s : StreamState) (finishReason : Option String) :
    StreamState × List Out :=
  if finishReason = some "tool_calls" then turnBoundary s
  else if finishReason = some "stop" then
    let fl := flushThinking s
    if fl.1.contentBuf.isEmpty then fl
    else
      let finalText := pyStrip (String.join fl.1.contentBuf)
      let contentOut := if finalText = "" then [] else [Out.content finalText false]
      ({ fl.1 with contentBuf := [] }, fl.2 ++ contentOut)
  else (s, [])

/-- Process one upstream line.  Returns the new state, the events
yielded, and whether the generator returned (only the `data: [DONE]`
line ends it).  `msgCount` is `len(messages)` after preprocessing and
date injection; `wsBefore`/`wsAfter` are the workspace snapshots used
by the file diff at the terminal `[DONE]`. -/
def processLine (msgCount : ℕ) (wsBefore wsAfter : List (String × ℕ × ℚ))
    (s : StreamState) : UpLine → StreamState × List Out × Bool
  | .blank => (s, [], false)
  | .nonData _ => (s, [], false)
  | .badJson raw => (s, [Out.passthrough raw], false)
  | .noChoices raw => (s, [Out.passthrough raw], false)
  | .done =>
    -- flush pending thinking batch (the [DONE] site clears only the list)
    let preOuts := if s.thinkingBatch.isEmpty then []
      else [Out.thinking (String.join s.thinkingBatch)]
    let s1 := { s with thinkingBatch := [] }
    let mainOuts :=
      if s1.chunkCount = 0 then
        if 4 < msgCount then [Out.content filteredMessage true]
        else [Out.content "AI 暂时无法响应，请稍后重试" false]
      else if s1.contentBuf.isEmpty then []
      else
        let finalText := pyStrip (String.join s1.contentBuf)
        if finalText = "" then [] else [Out.content finalText false]
    let fileOuts := (diff_workspace wsBefore wsAfter).map Out.file
    (s1, preOuts ++ mainOuts ++ fileOuts ++ [Out.done], true)
  | .chunk delta finishReason ts =>
    let s0 := { s with chunkCount := s.chunkCount + 1 }
    let tr := toolsStep s0 delta.toolCalls
    let cr :=
      match delta.content with
      | some text => if text = "" then (tr.1, []) else contentStep tr.1 text ts
      | none => (tr.1, [])
    let fr := finishStep cr.1 finishReason
    (fr.1, tr.2 ++ (cr.2 ++ fr.2), false)

/-- The `async for raw_line in resp.aiter_lines()` loop: process lines
until one terminates the generator or the upstream closes the body. -/
def runLines (msgCount : ℕ) (wsBefore wsAfter : List (String × ℕ × ℚ)) :
    StreamState → List UpLine → StreamState × List Out × Bool
  | s, [] => (s, [], false)
  | s, l :: rest =>
    let r := processLine msgCount wsBefore wsAfter s l
    if r.2.2 then r
    else
      let r2 := runLines msgCount wsBefore wsAfter r.1 rest
      (r2.1, r.2.1 ++ r2.2.1, r2.2.2)

/-- One upstream attempt: the SSE lines delivered before the body ends,
and `some exc` when the attempt then raises (`none` = the body ended
gracefully).  An exception before any response data (connection
refused, a failing `raise_for_status`) is `⟨[], some exc⟩`.  Lines
after a `data: [DONE]` are never read: the generator returns there. -/
structure Attempt where
  lines : List UpLine
  exc : Option ExcKind

/-- The whole streaming generator: two attempts with a ~3 s backoff
between them; the state persists across attempts; exhausted retries
yield the friendly error chunk (classified from the last exception)
followed by the sentinel instead of raising — an HTTP 200 stream, never
a 5xx.  Returns the emitted events and the final state. -/
def proxy_chat_stream_core (msgCount : ℕ) (wsBefore wsAfter : List (String × ℕ × ℚ))
    (a1 a2 : Attempt) : List Out × StreamState :=
  let r1 := runLines msgCount wsBefore wsAfter initStreamState a1.lines
  if r1.2.2 then (r1.2.1, r1.1)
  else
    match a1.exc with
    | none => (r1.2.1, r1.1)
    | some _ =>
      let r2 := runLines msgCount wsBefore wsAfter r1.1 a2.lines
      if r2.2.2 then (r1.2.1 ++ r2.2.1, r2.1)
      else
        match a2.exc with
        | none => (r1.2.1 ++ r2.2.1, r2.1)
        | some e2 =>
          (r1.2.1 ++ r2.2.1
            ++ [Out.content (errorMessage (classify_error e2)) false, Out.done],
           r2.1)

/-- `proxy_chat_stream` end to end: attachment preprocessing, date
injection, then the streaming loop (which consumes the forwarded
message list only through its length, at the empty-stream check). -/
def proxy_chat_stream (names : ℕ → String) (idx : ℕ) (dateStr weekday : String)
    (year : ℕ) (inbound : List Msg) (wsBefore wsAfter : List (String × ℕ × ℚ))
    (a1 a2 : Attempt) : List Out × StreamState :=
  proxy_chat_stream_core
    (forwardedMessages names idx dateStr weekday year inbound).length
    wsBefore wsAfter a1 a2

/-! ## Config rendering and hooks token (`config_generator.py`,
`instance_manager.py`)

The on-disk `openclaw.json` is modelled as a `Jv` value (write followed
by parse is the identity for the well-formed documents rendered here). -/

/-- Modelled from the spec: the tier template files
(`backend/docker/openclaw-template-*.json`) are not under `src/`.  Per
§6 the template carries the placeholders `{{ ZENMUX_API_KEY }}`,
`{{ MAX_TOKENS }}`, `{{ PRIMARY_MODEL }}`, `{{ GATEWAY_TOKEN }}` and
`{{ HOOKS_TOKEN }}`, and per the glossary and `read_hooks_token` the
hooks token lives at `hooks.token`.  `render_config` substitutes the
placeholders; when `hooks_token` is `none` a fresh random token
(`fresh`, the `secrets.token_hex(24)` draw) is used instead. -/
def render_config (apiKey maxTokens primaryModel gatewayToken : String)
    (hooksToken : Option String) (fresh : String) : Jv :=
  .obj [("zenmux_api_key", .str apiKey),
        ("max_tokens", .str maxTokens),
        ("primary_model", .str primaryModel),
        ("gateway", .obj [("token", .str gatewayToken)]),
        ("hooks", .obj [("token", .str (hooksToken.getD fresh))])]

/-- `read_hooks_token`: `cfg.get("hooks", {}).get("token")` on the
parsed `openclaw.json`; `none` for a missing or unparsable file (the
caller passes `none` as `onDisk`) and for a missing or non-string
token.  (The source would raise `AttributeError` on a non-object
`hooks` value and could return a non-string token; no rendering path
produces either shape, and the claims below only exercise rendered
configs.) -/
def read_hooks_token (onDisk : Option Jv) : Option String :=
  match onDisk with
  | none => none
  | some cfg =>
    match cfg with
    | .obj fields =>
      match lookupField fields "hooks" with
      | some (.obj hf) =>
        match lookupField hf "token" with
        | some (.str t) => some t
        | _ => none
      | _ => none
    | _ => none

/-- `InstanceManager._sync_config`: re-render `openclaw.json` from the
latest template, preserving the hooks token read from the on-disk
config.  Called before every container start and restart. -/
def sync_config (apiKey maxTokens primaryModel gatewayToken : String)
    (onDisk : Option Jv) (fresh : String) : Jv :=
  render_config apiKey maxTokens primaryModel gatewayToken
    (read_hooks_token onDisk) fresh

/-! ## Idle reaper and cron protection (`instance_manager.py`) -/

/-- The observable states of `config_path/cron/jobs.json`: absent,
present but not valid JSON, or parsed to a `Jv`. -/
inductive CronFile where
  | missing
  | invalid
  | parsed (v : Jv)

/-- The short-circuiting `any(j.get("enabled", True) for j in ...)`:
`none` models the `AttributeError` raised when a non-dict entry is
reached (caught by the enclosing `except`, which returns `False`). -/
def anyEnabledJobs : List Jv → Option Bool
  | [] => some false
  | .obj fields :: rest =>
    if truthy ((lookupField fields "enabled").getD (.bool true)) then some true
    else anyEnabledJobs rest
  | _ :: _ => none

/-- `InstanceManager._has_active_cron_jobs`: `False` when the file is
missing, fails to parse, is not an object, its `jobs` value is not a
list (iterating it either yields nothing or raises, both caught), or no
entry has a truthy `enabled` (missing key defaults to `True`). -/
def has_active_cron_jobs : CronFile → Bool
  | .missing => false
  | .invalid => false
  | .parsed v =>
    match v with
    | .obj fields =>
      match (lookupField fields "jobs").getD (.arr []) with
      | .arr jobs => (anyEnabledJobs jobs).getD false
      | _ => false
    | _ => false

/-- A sandbox record as the reaper sees it: the DB `state` and
`last_active_at` plus its cron jobs file. -/
structure SandboxRec where
  state : String
  lastActiveAt : ℚ
  cron : CronFile

/-- The decision `stop_idle_instances` takes for one record: the DB
query selects `state == "running" ∧ last_active_at < cutoff`, the loop
skips records with active cron jobs, and stops the rest (the container
stop is modelled as succeeding). -/
def reapStep (cutoff : ℚ) (r : SandboxRec) : SandboxRec :=
  if r.state = "running" ∧ r.lastActiveAt < cutoff
      ∧ ¬has_active_cron_jobs r.cron then
    { r with state := "stopped" }
  else r

/-- `InstanceManager.stop_idle_instances` over the catalog:
`cutoff = now − idle_timeout`.  Returns the updated records and the
count of instances stopped. -/
def stop_idle_instances (cutoff : ℚ) (recs : List SandboxRec) :
    List SandboxRec × ℕ :=
  (recs.map (reapStep cutoff),
   (recs.filter (fun r => decide (r.state = "running" ∧ r.lastActiveAt < cutoff
     ∧ ¬has_active_cron_jobs r.cron))).length)

/-! ## Alert monitor tailing (`alert_monitor.py`)

The journal is modelled as its decoded character sequence (`none` when
the file does not exist); sizes and offsets count one unit per
character, the model's rendering of the source's byte positions. -/

/-- Split the region after the seek point into the lines Python's file
iteration yields (minus the `\n` terminators, which the subsequent
`strip()` removes anyway). -/
def splitLinesAux : List Char → List Char → List (List Char)
  | [], acc => [acc.reverse]
  | '\n' :: rest, acc => acc.reverse :: splitLinesAux rest []
  | c :: rest, acc => splitLinesAux rest (c :: acc)

def splitAlertLines (cs : List Char) : List (List Char) :=
  splitLinesAux cs []

/-- The per-line body of `_read_new_alerts`: strip, skip empties, parse
as JSON, keep only dict objects containing a `"title"` key. -/
def acceptAlertLine (lineChars : List Char) : Option Jv :=
  let l := pyStrip (String.mk lineChars)
  if l = "" then none
  else
    match parseJson l with
    | some (.obj fields) =>
      if (lookupField fields "title").isSome then some (.obj fields) else none
    | _ => none

def acceptedAlerts (tail : List Char) : List Jv :=
  (splitAlertLines tail).filterMap acceptAlertLine

/-- `_read_new_alerts`: returns the accepted alerts and the new stored
offset for this user.  A missing file returns no alerts and leaves the
offset untouched; `size < offset` (truncation/rotation) resets the
offset to 0 and rereads from the start; `size = offset` returns early;
otherwise reading starts at the stored offset and the offset advances
to `f.tell()`, the end of the file. -/
def read_new_alerts (file : Option (List Char)) (offset : ℕ) : List Jv × ℕ :=
  match file with
  | none => ([], offset)
  | some content =>
    let fileSize := content.length
    if fileSize ≤ offset then
      if fileSize < offset then
        (acceptedAlerts content, fileSize)
      else ([], offset)
    else (acceptedAlerts (content.drop offset), fileSize)

/-! ## Port allocation (`port_allocator.py`) -/

/-- `allocate_port`: scan the configured inclusive range in ascending
order for a port not bound to an existing sandbox record; `none`
models the `RuntimeError` (`NoPortsAvailable` in the spec's taxonomy)
raised when the range is exhausted. -/
def allocate_port (usedPorts : List ℕ) (rangeStart rangeEnd : ℕ) : Option ℕ :=
  (List.range' rangeStart (rangeEnd + 1 - rangeStart)).find?
    (fun p => p ∉ usedPorts)

/-! # Theorems -/

/-! ## C9 — port allocation -/

theorem find?_range'_min (p : ℕ → Bool) :
    ∀ (n s a : ℕ), (List.range' s n).find? p = some a →
      ∀ q ∈ List.range' s n, p q → a ≤ q := by
  intro n
  induction n with
  | zero => intro s a h; simp [List.range'] at h
  | succ m ih =>
    intro s a h q hq hpq
    rw [List.range'_succ] at h hq
    by_cases hps : p s
    · rw [List.find?_cons_of_pos _ hps] at h
      cases h
      rcases List.mem_cons.mp hq with rfl | hq'
      · exact le_refl q
      · exact Nat.le_of_lt (Nat.lt_of_lt_of_le (Nat.lt_succ_self _)
          (List.mem_range'_1.mp hq').1)
    · rw [List.find?_cons_of_neg _ hps] at h
      rcases List.mem_cons.mp hq with rfl | hq'
      · exact absurd hpq hps
      · exact ih (s + 1) a h q hq' hpq

/-- C9: `allocate_port` returns the lowest port of the inclusive
configured range that is not among the ports of existing sandbox
records, and fails (`RuntimeError`, the spec's `NoPortsAvailable`)
exactly when every port of the range is already used. -/
theorem c9_allocate_port (usedPorts : List ℕ) (rangeStart rangeEnd : ℕ) :
    (∀ p, allocate_port usedPorts rangeStart rangeEnd = some p →
      (rangeStart ≤ p ∧ p ≤ rangeEnd) ∧ p ∉ usedPorts ∧
        ∀ q, rangeStart ≤ q → q ≤ rangeEnd → q ∉ usedPorts → p ≤ q) ∧
    (allocate_port usedPorts rangeStart rangeEnd = none ↔
      ∀ q, rangeStart ≤ q → q ≤ rangeEnd → q ∈ usedPorts) := by
  constructor
  · intro p hp
    have hmem := List.mem_of_find?_eq_some hp
    have hfree := List.find?_some hp
    have hrange := List.mem_range'_1.mp hmem
    refine ⟨⟨hrange.1, by omega⟩, by simpa using hfree, ?_⟩
    intro q hq1 hq2 hq3
    refine find?_range'_min _ _ _ _ hp q ?_ ?_
    · exact List.mem_range'_1.mpr ⟨hq1, by omega⟩
    · simpa using hq3
  · rw [allocate_port, List.find?_eq_none]
    constructor
    · intro h q hq1 hq2
      have := h q (List.mem_range'_1.mpr ⟨hq1, by omega⟩)
      simpa using this
    · intro h x hx
      have hr := List.mem_range'_1.mp hx
      have := h x hr.1 (by omega)
      simpa using this

theorem c9_allocate_port_witness : 8102 ∉ [8101, 8100] :=
  ((c9_allocate_port [8101, 8100] 8100 8102).1 8102 (by decide)).2.1

/-! ## C5 — hooks token preserved across config re-renders -/

theorem read_hooks_token_render (apiKey maxTokens primaryModel gatewayToken : String)
    (hooksToken : Option String) (fresh : String) :
    read_hooks_token (some (render_config apiKey maxTokens primaryModel
      gatewayToken hooksToken fresh)) = some (hooksToken.getD fresh) := by
  simp [read_hooks_token, render_config, lookupField]

/-- C5: any config re-render performed on start/restart
(`_sync_config`) preserves the hooks token present in the on-disk
`openclaw.json`: reading the token after the re-render returns the
token read before it. -/
theorem c5_hooks_token_preserved (apiKey maxTokens primaryModel gatewayToken : String)
    (cfg : Jv) (t fresh : String)
    (h : read_hooks_token (some cfg) = some t) :
    read_hooks_token (some (sync_config apiKey maxTokens primaryModel gatewayToken
      (some cfg) fresh)) = some t := by
  rw [sync_config, h, read_hooks_token_render]
  rfl

theorem c5_hooks_token_preserved_witness :
    read_hooks_token (some (sync_config "zk" "mt" "pm" "gt"
      (some (Jv.obj [("hooks", Jv.obj [("token", Jv.str "tok123")])])) "fresh456"))
      = some "tok123" :=
  c5_hooks_token_preserved "zk" "mt" "pm" "gt"
    (Jv.obj [("hooks", Jv.obj [("token", Jv.str "tok123")])]) "tok123" "fresh456" rfl

/-! ## C6 / C10 — idle reaper and cron protection -/

theorem anyEnabledJobs_append_true (ef : List (String × Jv)) (post : List Jv)
    (htr : truthy ((lookupField ef "enabled").getD (.bool true)) = true) :
    ∀ pre : List Jv, (∀ j ∈ pre, ∃ g, j = Jv.obj g) →
      anyEnabledJobs (pre ++ Jv.obj ef :: post) = some true := by
  intro pre
  induction pre with
  | nil => intro _; simp [anyEnabledJobs, htr]
  | cons j rest ih =>
    intro hobj
    obtain ⟨g, rfl⟩ := hobj j (by simp)
    rw [List.cons_append, anyEnabledJobs]
    split
    · rfl
    · exact ih (fun j hj => hobj j (by simp [hj]))

/-- C6 (amended): the reaper maps `reapStep` over the catalog; a record
whose cron check succeeds is never stopped, whatever its
`last_active_at`; and the cron check succeeds whenever the parsed
`jobs` list reaches an object entry whose `enabled` value is truthy or
absent (absent defaults to enabled) with only object entries before
it.  Falsy `enabled` values (`false`, `null`, `0`, `""`) do not count,
and a non-object entry aborts the check. -/
theorem c6_cron_protection (cutoff : ℚ) (recs : List SandboxRec) :
    (stop_idle_instances cutoff recs).1 = recs.map (reapStep cutoff)
    ∧ (∀ r : SandboxRec, has_active_cron_jobs r.cron = true → reapStep cutoff r = r)
    ∧ (∀ (fields : List (String × Jv)) (js pre post : List Jv)
          (ef : List (String × Jv)),
        lookupField fields "jobs" = some (.arr js) →
        js = pre ++ Jv.obj ef :: post →
        (∀ j ∈ pre, ∃ g, j = Jv.obj g) →
        truthy ((lookupField ef "enabled").getD (.bool true)) = true →
        has_active_cron_jobs (.parsed (.obj fields)) = true) := by
  refine ⟨rfl, ?_, ?_⟩
  · intro r h
    simp [reapStep, h]
  · intro fields js pre post ef hjobs hsplit hpre htr
    rw [has_active_cron_jobs, hjobs]
    simp only [Option.getD_some]
    rw [hsplit, anyEnabledJobs_append_true ef post htr pre hpre]
    rfl

theorem c6_cron_protection_witness :
    reapStep 5 ⟨"running", 0, CronFile.parsed (Jv.obj [("jobs",
        Jv.arr [Jv.obj []])])⟩
      = ⟨"running", 0, CronFile.parsed (Jv.obj [("jobs", Jv.arr [Jv.obj []])])⟩ := by
  have hact := (c6_cron_protection 5 []).2.2
    [("jobs", Jv.arr [Jv.obj []])] [Jv.obj []] [] [] []
    rfl rfl (by simp) rfl
  exact (c6_cron_protection 5 []).2.1 _ hact

theorem c6_counterexample :
    (stop_idle_instances 10
        [⟨"running", 0,
          CronFile.parsed (Jv.obj [("jobs", Jv.arr [Jv.obj [("enabled", Jv.null)]])])⟩]).1
      = [⟨"stopped", 0,
          CronFile.parsed (Jv.obj [("jobs", Jv.arr [Jv.obj [("enabled", Jv.null)]])])⟩]
    ∧ (stop_idle_instances 10
        [⟨"running", 0,
          CronFile.parsed (Jv.obj [("jobs", Jv.arr [Jv.obj [("enabled", Jv.null)]])])⟩]).2
      = 1 :=
  ⟨rfl, rfl⟩

/-- C10: when `cron/jobs.json` is missing or unparsable the active-cron
check returns `False`, so a running sandbox idle past the cutoff is
stopped rather than protected. -/
theorem c10_reaper_stops_broken_cron (cutoff : ℚ) (r : SandboxRec)
    (hstate : r.state = "running") (hidle : r.lastActiveAt < cutoff)
    (hcron : r.cron = CronFile.missing ∨ r.cron = CronFile.invalid) :
    has_active_cron_jobs r.cron = false
    ∧ reapStep cutoff r = { r with state := "stopped" }
    ∧ (stop_idle_instances cutoff [r]).2 = 1 := by
  have h1 : has_active_cron_jobs r.cron = false := by
    rcases hcron with h | h <;> rw [h] <;> rfl
  refine ⟨h1, ?_, ?_⟩
  · simp [reapStep, hstate, hidle, h1]
  · simp [stop_idle_instances, hstate, hidle, h1]

theorem c10_reaper_stops_broken_cron_witness :
    reapStep 5 ⟨"running", 0, CronFile.missing⟩ = ⟨"stopped", 0, CronFile.missing⟩ :=
  (c10_reaper_stops_broken_cron 5 ⟨"running", 0, CronFile.missing⟩ rfl
    (by norm_num) (Or.inl rfl)).2.1

/-! ## C8 — alert journal tailing -/

/-- C8: on each monitor pass over one sandbox's alerts file, reading
starts at the stored offset, except that a file strictly smaller than
the offset (truncation/rotation) resets the offset to 0 and rereads
from the beginning; the accepted alerts are exactly the lines of the
read region that parse as JSON objects containing a `"title"` key; and
the stored offset afterwards equals the new end-of-file position. -/
theorem c8_alert_tailing :
    (∀ (content : List Char) (offset : ℕ),
      read_new_alerts (some content) offset
        = (acceptedAlerts
            (content.drop (if content.length < offset then 0 else offset)),
           content.length))
    ∧ (∀ offset, read_new_alerts none offset = ([], offset))
    ∧ (∀ lineChars : List Char,
        (acceptAlertLine lineChars).isSome
          ↔ ∃ fields, parseJson (pyStrip (String.mk lineChars)) = some (Jv.obj fields)
              ∧ (lookupField fields "title").isSome) := by
  refine ⟨?_, fun _ => rfl, ?_⟩
  · intro content offset
    by_cases h2 : content.length < offset
    · have h1 : content.length ≤ offset := Nat.le_of_lt h2
      simp [read_new_alerts, h1, h2]
    · by_cases h1 : content.length ≤ offset
      · have heq : offset = content.length := by omega
        subst heq
        simp [read_new_alerts, h2, List.drop_length]
        rfl
      · simp [read_new_alerts, h1, h2]
  · intro lineChars
    by_cases h0 : pyStrip (String.mk lineChars) = ""
    · rw [acceptAlertLine]
      simp only [h0, if_pos]
      have hnone : parseJson "" = none := rfl
      simp [hnone]
    · rw [acceptAlertLine]
      simp only [h0, if_neg, reduceIte]
      rcases hp : parseJson (pyStrip (String.mk lineChars)) with _ | v
      · simp [hp]
      · cases v with
        | obj fields =>
          by_cases ht : (lookupField fields "title").isSome <;> simp [hp, ht]
        | null => simp [hp]
        | bool b => simp [hp]
        | num n => simp [hp]
        | str s => simp [hp]
        | arr xs => simp [hp]

/-! ## C3 — friendly error when both streaming attempts fail -/

/-- C3: when both upstream attempts of a streaming request fail with an
exception before delivering any SSE line (the connection-refused case),
`proxy_chat_stream` swallows the error: the client stream is exactly
one `delta.content` chunk carrying the friendly message of the
classified category followed by the `data: [DONE]` sentinel — the
generator yields instead of raising, so no HTTP 5xx reaches the
client.  For connection-refused failures the message is the literal
`"网络连接异常，正在重试..."`. -/
theorem c3_retries_exhausted_friendly_error (msgCount : ℕ)
    (wsBefore wsAfter : List (String × ℕ × ℚ)) (e1 e2 : ExcKind) :
    (proxy_chat_stream_core msgCount wsBefore wsAfter
        ⟨[], some e1⟩ ⟨[], some e2⟩).1
      = [Out.content (errorMessage (classify_error e2)) false, Out.done]
    ∧ (proxy_chat_stream_core msgCount wsBefore wsAfter
        ⟨[], some ExcKind.connectError⟩ ⟨[], some ExcKind.connectError⟩).1
      = [Out.content "网络连接异常，正在重试..." false, Out.done] :=
  ⟨rfl, rfl⟩

/-! ## C2 — attachment materialization rebuilds the wrong message -/

/-- C2 (code bug): `_extract_attachments` decodes the attachments of
the **last** user message, but `_rebuild_messages_with_file_refs`
replaces the **first** user message whose list content contains an
attachment-typed part (its own docstring says 最后一条 — the last one).
With an earlier structured user message present, the earlier message is
replaced and the actual last user message is forwarded with its
structured content intact.  Here: message 0 (a user message with an
`http:` image part, from which nothing was extracted) becomes the
file-reference string, while message 1 (whose `data:` PNG part was
decoded and saved) passes through unchanged. -/
theorem c2_rebuild_replaces_first_structured_user_msg :
    preprocess_attachments (fun _ => "f1e2d3c4b5a6") 0
      [⟨"user", Content.parts [Part.imageUrl "http://x/a.png", Part.text "old"]⟩,
       ⟨"user", Content.parts
         [Part.imageUrl "data:image/png;base64,AAAA", Part.text "describe"]⟩]
    = ([⟨"user",
          Content.str "[用户发送了文件: media/inbound/f1e2d3c4b5a6.png]\n\nold"⟩,
        ⟨"user", Content.parts
          [Part.imageUrl "data:image/png;base64,AAAA", Part.text "describe"]⟩],
       [("media/inbound/f1e2d3c4b5a6.png", [0, 0, 0])]) := by
  rfl

/-! ## C7 — empty-stream handling -/

theorem extract_attachments_fst (names : ℕ → String) (idx : ℕ) (msgs : List Msg) :
    (extract_attachments names idx msgs).1 = msgs := by
  rw [extract_attachments]
  rcases lastUser msgs with _ | m
  · rfl
  · rcases m with ⟨role, content⟩
    rcases content with s | ps | _
    · rfl
    · dsimp only
      split <;> rfl
    · rfl

theorem rebuildGo_length (paths : List String) :
    ∀ (msgs : List Msg) (replaced : Bool),
      (rebuildGo paths msgs replaced).length = msgs.length := by
  intro msgs
  induction msgs with
  | nil => intro r; rfl
  | cons m rest ih =>
    intro r
    rcases m with ⟨role, content⟩
    rw [rebuildGo]
    split
    · simp [ih]
    · rcases content with s | ps | _
      · simp [ih]
      · dsimp only
        split
        · simp [ih]
        · simp [ih]
      · simp [ih]

theorem preprocess_attachments_length (names : ℕ → String) (idx : ℕ)
    (msgs : List Msg) :
    (preprocess_attachments names idx msgs).1.length = msgs.length := by
  rw [preprocess_attachments]
  dsimp only
  split
  · simp only [rebuild_messages_with_file_refs, rebuildGo_length,
      extract_attachments_fst]
  · simp only [extract_attachments_fst]

theorem tagLastUserRev_length (dateStr : String) (year : ℕ) :
    ∀ msgs : List Msg, (tagLastUserRev dateStr year msgs).length = msgs.length := by
  intro msgs
  induction msgs with
  | nil => rfl
  | cons m rest ih =>
    rw [tagLastUserRev]
    split <;> simp [ih]

theorem forwardedMessages_length (names : ℕ → String) (idx : ℕ)
    (dateStr weekday : String) (year : ℕ) (inbound : List Msg) :
    (forwardedMessages names idx dateStr weekday year inbound).length
      = inbound.length + 1 := by
  rw [forwardedMessages, inject_date_context]
  simp [tagLastUserRev_length, preprocess_attachments_length]

/-- C7 (amended): an upstream stream that terminates with
`data: [DONE]` after zero delta chunks triggers the filtered chunk
exactly when the *forwarded* message list (inbound messages plus the
injected date-context system message) has more than four entries,
i.e. when more than **three** inbound messages were carried; with three
or fewer inbound messages the plain retry message is emitted instead. -/
theorem c7_empty_stream_boundary (names : ℕ → String) (idx : ℕ)
    (dateStr weekday : String) (year : ℕ) (inbound : List Msg)
    (wsBefore wsAfter : List (String × ℕ × ℚ)) (a2 : Attempt) :
    (proxy_chat_stream names idx dateStr weekday year inbound wsBefore wsAfter
        ⟨[UpLine.done], none⟩ a2).1
      = (if 3 < inbound.length then [Out.content filteredMessage true]
         else [Out.content "AI 暂时无法响应，请稍后重试" false])
        ++ ((diff_workspace wsBefore wsAfter).map Out.file ++ [Out.done]) := by
  rw [proxy_chat_stream, forwardedMessages_length]
  by_cases h : 3 < inbound.length
  · have h4 : 4 < inbound.length + 1 := by omega
    simp [proxy_chat_stream_core, runLines, processLine, h, h4, initStreamState]
  · have h4 : ¬(4 < inbound.length + 1) := by omega
    simp [proxy_chat_stream_core, runLines, processLine, h, h4, initStreamState]

theorem c7_counterexample :
    ([⟨"user", Content.str "a"⟩, ⟨"assistant", Content.str "b"⟩,
      ⟨"user", Content.str "c"⟩, ⟨"user", Content.str "d"⟩] : List Msg).length ≤ 4
    ∧ (proxy_chat_stream (fun _ => "n0") 0 "2026-10-12 00:00 UTC" "Sunday" 2026
        [⟨"user", Content.str "a"⟩, ⟨"assistant", Content.str "b"⟩,
         ⟨"user", Content.str "c"⟩, ⟨"user", Content.str "d"⟩] [] []
        ⟨[UpLine.done], none⟩ ⟨[], none⟩).1
      = [Out.content filteredMessage true, Out.done] :=
  ⟨by norm_num, rfl⟩

/-! ## C1 — temporal turn-boundary detection -/

theorem join_singleton (s : String) : String.join [s] = s := rfl

/-- Evaluation of `contentStep` when no turn boundary fires and the
batch stays under the flush threshold. -/
theorem contentStep_of_not_gap (s : StreamState) (text : String) (ts : ℚ)
    (h : ¬(0 < s.lastContentTs ∧ turnGapSeconds < ts - s.lastContentTs))
    (hlen : s.thinkingBatchChars + text.length < thinkingBatchLimit) :
    contentStep s text ts
      = ({ s with
            lastContentTs := ts
            contentBuf := s.contentBuf ++ [text]
            thinkingBatch := s.thinkingBatch ++ [text]
            thinkingBatchChars := s.thinkingBatchChars + text.length }, []) := by
  simp only [contentStep, if_neg h]
  rw [if_neg (Nat.not_le.mpr hlen)]

/-- Evaluation of `contentStep` when the temporal gap fires with a
pending thinking batch, no prior thinking flush, and a short text. -/
theorem contentStep_of_gap_flush (s : StreamState) (text : String) (ts : ℚ)
    (h : 0 < s.lastContentTs ∧ turnGapSeconds < ts - s.lastContentTs)
    (hb : s.thinkingBatch.isEmpty = false)
    (hsep : s.thinkingEmitted = false)
    (hlen : text.length < thinkingBatchLimit) :
    contentStep s text ts
      = ({ s with
            lastContentTs := ts
            contentBuf := [text]
            turnCount := s.turnCount + 1
            thinkingBatch := [text]
            thinkingBatchChars := text.length },
         [Out.thinking (String.join s.thinkingBatch)]) := by
  simp only [contentStep, if_pos h, turnBoundary, flushThinking, hb,
    Bool.false_eq_true, if_neg, hsep, List.nil_append]
  rw [if_neg (Nat.not_le.mpr (by simpa using hlen))]
  simp

/-- A chunk carrying only content (no tool calls, no finish reason)
reduces to `contentStep` on the state with `chunk_count` bumped. -/
theorem processLine_chunk_plain (msgCount : ℕ)
    (wsBefore wsAfter : List (String × ℕ × ℚ)) (s : StreamState)
    (text : String) (ts : ℚ) (htext : text ≠ "") :
    processLine msgCount wsBefore wsAfter s
        (.chunk ⟨[], some text⟩ none ts)
      = ((contentStep { s with chunkCount := s.chunkCount + 1 } text ts).1,
         (contentStep { s with chunkCount := s.chunkCount + 1 } text ts).2,
         false) := by
  simp [processLine, toolsStep, finishStep, htext]

theorem c1_scenario_eval :
    proxy_chat_stream_core 5 [] []
        ⟨[UpLine.chunk ⟨[], some "A"⟩ none 1,
          UpLine.chunk ⟨[], some "B"⟩ none 1,
          UpLine.chunk ⟨[], some "C"⟩ none (9 / 2),
          UpLine.chunk ⟨[], some "D"⟩ none (23 / 5),
          UpLine.done], none⟩ ⟨[], none⟩
      = ([Out.thinking "AB", Out.thinking "CD", Out.content "CD" false, Out.done],
         ⟨[], ["C", "D"], false, 23 / 5, 2, 4, [], 2⟩) := by
  have hAs : contentStep ⟨[], [], false, 0, 1, 1, [], 0⟩ "A" 1
      = (⟨[], ["A"], false, 1, 1, 1, ["A"], 1⟩, []) := by
    rw [contentStep_of_not_gap ⟨[], [], false, 0, 1, 1, [], 0⟩ "A" 1
      (by norm_num [turnGapSeconds]) (by decide)]
    rfl
  have hA : processLine 5 [] [] ⟨[], [], false, 0, 1, 0, [], 0⟩
      (.chunk ⟨[], some "A"⟩ none 1)
      = (⟨[], ["A"], false, 1, 1, 1, ["A"], 1⟩, [], false) := by
    simp [processLine, toolsStep, finishStep, hAs]
  have hBs : contentStep ⟨[], ["A"], false, 1, 1, 2, ["A"], 1⟩ "B" 1
      = (⟨[], ["A", "B"], false, 1, 1, 2, ["A", "B"], 2⟩, []) := by
    rw [contentStep_of_not_gap ⟨[], ["A"], false, 1, 1, 2, ["A"], 1⟩ "B" 1
      (by norm_num [turnGapSeconds]) (by decide)]
    rfl
  have hB : processLine 5 [] [] ⟨[], ["A"], false, 1, 1, 1, ["A"], 1⟩
      (.chunk ⟨[], some "B"⟩ none 1)
      = (⟨[], ["A", "B"], false, 1, 1, 2, ["A", "B"], 2⟩, [], false) := by
    simp [processLine, toolsStep, finishStep, hBs]
  have hCs : contentStep ⟨[], ["A", "B"], false, 1, 1, 3, ["A", "B"], 2⟩ "C" (9 / 2)
      = (⟨[], ["C"], false, 9 / 2, 2, 3, ["C"], 1⟩, [Out.thinking "AB"]) := by
    rw [contentStep_of_gap_flush ⟨[], ["A", "B"], false, 1, 1, 3, ["A", "B"], 2⟩
      "C" (9 / 2) ⟨by norm_num, by norm_num [turnGapSeconds]⟩ rfl rfl (by decide)]
    rfl
  have hC : processLine 5 [] [] ⟨[], ["A", "B"], false, 1, 1, 2, ["A", "B"], 2⟩
      (.chunk ⟨[], some "C"⟩ none (9 / 2))
      = (⟨[], ["C"], false, 9 / 2, 2, 3, ["C"], 1⟩, [Out.thinking "AB"], false) := by
    simp [processLine, toolsStep, finishStep, hCs]
  have hDs : contentStep ⟨[], ["C"], false, 9 / 2, 2, 4, ["C"], 1⟩ "D" (23 / 5)
      = (⟨[], ["C", "D"], false, 23 / 5, 2, 4, ["C", "D"], 2⟩, []) := by
    rw [contentStep_of_not_gap ⟨[], ["C"], false, 9 / 2, 2, 4, ["C"], 1⟩ "D" (23 / 5)
      (by norm_num [turnGapSeconds]) (by decide)]
    rfl
  have hD : processLine 5 [] [] ⟨[], ["C"], false, 9 / 2, 2, 3, ["C"], 1⟩
      (.chunk ⟨[], some "D"⟩ none (23 / 5))
      = (⟨[], ["C", "D"], false, 23 / 5, 2, 4, ["C", "D"], 2⟩, [], false) := by
    simp [processLine, toolsStep, finishStep, hDs]
  have hE : processLine 5 [] [] ⟨[], ["C", "D"], false, 23 / 5, 2, 4, ["C", "D"], 2⟩
      UpLine.done
      = (⟨[], ["C", "D"], false, 23 / 5, 2, 4, [], 2⟩,
         [Out.thinking "CD", Out.content "CD" false, Out.done], true) := by
    rfl
  simp only [proxy_chat_stream_core, runLines, initStreamState, hA, hB, hC, hD, hE]
  rfl

/-- C1 (amended): when the interarrival gap between two consecutive
content chunks exceeds the 3.0-second threshold, the proxy flushes any
pending thinking batch, clears the turn's content buffer (the new text
becomes the whole buffer), increments `turn_count`, and emits the
`"\n\n"` thinking separator **only if** a thinking flush had already
occurred (`thinking_emitted`); in the scenario (content at t=1 s, 1 s,
4.5 s, 4.6 s then `[DONE]`) exactly one `delta.content` equal to
`"CD"` is emitted and `turn_count = 2`, but no separator appears
because nothing had set `thinking_emitted`. -/
theorem c1_turn_gap_behavior :
    (∀ (s : StreamState) (text : String) (ts : ℚ),
      0 < s.lastContentTs →
      turnGapSeconds < ts - s.lastContentTs →
      text ≠ "" →
      s.thinkingBatchChars = (s.thinkingBatch.map String.length).sum →
      (contentStep s text ts).1.contentBuf = [text]
      ∧ (contentStep s text ts).1.turnCount = s.turnCount + 1
      ∧ (contentStep s text ts).2
          = (if s.thinkingBatch.isEmpty then []
             else [Out.thinking (String.join s.thinkingBatch)])
            ++ ((if s.thinkingEmitted then [Out.thinking "\n\n"] else [])
              ++ (if thinkingBatchLimit ≤ text.length then [Out.thinking text]
                  else [])))
    ∧ (proxy_chat_stream_core 5 [] []
        ⟨[UpLine.chunk ⟨[], some "A"⟩ none 1,
          UpLine.chunk ⟨[], some "B"⟩ none 1,
          UpLine.chunk ⟨[], some "C"⟩ none (9 / 2),
          UpLine.chunk ⟨[], some "D"⟩ none (23 / 5),
          UpLine.done], none⟩ ⟨[], none⟩).1
        = [Out.thinking "AB", Out.thinking "CD", Out.content "CD" false, Out.done]
    ∧ (proxy_chat_stream_core 5 [] []
        ⟨[UpLine.chunk ⟨[], some "A"⟩ none 1,
          UpLine.chunk ⟨[], some "B"⟩ none 1,
          UpLine.chunk ⟨[], some "C"⟩ none (9 / 2),
          UpLine.chunk ⟨[], some "D"⟩ none (23 / 5),
          UpLine.done], none⟩ ⟨[], none⟩).2.turnCount = 2 := by
  refine ⟨?_, by rw [c1_scenario_eval], by rw [c1_scenario_eval]⟩
  intro s text ts h1 h2 _ hinv
  have hcond : 0 < s.lastContentTs ∧ turnGapSeconds < ts - s.lastContentTs := ⟨h1, h2⟩
  by_cases hb : s.thinkingBatch.isEmpty
  · have hbeq : s.thinkingBatch = [] := List.isEmpty_iff.mp hb
    have hchars : s.thinkingBatchChars = 0 := by
      rw [hinv, hbeq]; rfl
    by_cases hL : thinkingBatchLimit ≤ text.length
    · simp [contentStep, if_pos hcond, turnBoundary, flushThinking, hb, hbeq,
        hchars, hL, join_singleton]
    · simp [contentStep, if_pos hcond, turnBoundary, flushThinking, hb, hbeq,
        hchars, hL]
  · have hbeq : s.thinkingBatch ≠ [] := by
      simpa [List.isEmpty_iff] using hb
    by_cases hL : thinkingBatchLimit ≤ text.length
    · simp [contentStep, if_pos hcond, turnBoundary, flushThinking, hb, hL,
        join_singleton]
    · simp [contentStep, if_pos hcond, turnBoundary, flushThinking, hb, hL]

theorem c1_turn_gap_behavior_witness :
    (contentStep ⟨[], ["c"], false, 1, 1, 1, ["w"], 1⟩ "y" 5).1.contentBuf = ["y"]
    ∧ (contentStep ⟨[], ["c"], false, 1, 1, 1, ["w"], 1⟩ "y" 5).1.turnCount = 2 := by
  have h := c1_turn_gap_behavior.1 ⟨[], ["c"], false, 1, 1, 1, ["w"], 1⟩ "y" 5
    (by norm_num) (by norm_num [turnGapSeconds]) (by decide) (by decide)
  exact ⟨h.1, h.2.1⟩

theorem c1_counterexample :
    Out.thinking "\n\n" ∉ (proxy_chat_stream_core 5 [] []
        ⟨[UpLine.chunk ⟨[], some "A"⟩ none 1,
          UpLine.chunk ⟨[], some "B"⟩ none 1,
          UpLine.chunk ⟨[], some "C"⟩ none (9 / 2),
          UpLine.chunk ⟨[], some "D"⟩ none (23 / 5),
          UpLine.done], none⟩ ⟨[], none⟩).1
    ∧ (proxy_chat_stream_core 5 [] []
        ⟨[UpLine.chunk ⟨[], some "A"⟩ none 1,
          UpLine.chunk ⟨[], some "B"⟩ none 1,
          UpLine.chunk ⟨[], some "C"⟩ none (9 / 2),
          UpLine.chunk ⟨[], some "D"⟩ none (23 / 5),
          UpLine.done], none⟩ ⟨[], none⟩).2.turnCount = 2 := by
  rw [c1_scenario_eval]
  refine ⟨?_, rfl⟩
  decide

/-! ## C4 — termination contract -/

/-- The client stream ends with a final `data: [DONE]` sentinel. -/
def endsWithDone (outs : List Out) : Prop :=
  ∃ pre, outs = pre ++ [Out.done]

theorem endsWithDone_mem {outs : List Out} (h : endsWithDone outs) :
    Out.done ∈ outs := by
  obtain ⟨pre, rfl⟩ := h
  simp

theorem endsWithDone_append_right {xs ys : List Out} (h : endsWithDone ys) :
    endsWithDone (xs ++ ys) := by
  obtain ⟨pre, rfl⟩ := h
  exact ⟨xs ++ pre, by simp⟩

theorem processTools_no_done (tcs : List ToolCall) :
    ∀ (seen : List String) (emitted : Bool),
      Out.done ∉ (processTools seen emitted tcs).2.2 := by
  induction tcs with
  | nil => intro seen emitted; simp [processTools]
  | cons tc rest ih =>
    intro seen emitted
    rw [processTools]
    split
    · simp only [List.mem_cons, not_or]
      exact ⟨by simp, ih _ _⟩
    · exact ih _ _

theorem flushThinking_no_done (s : StreamState) :
    Out.done ∉ (flushThinking s).2 := by
  rw [flushThinking]
  split <;> simp

theorem turnBoundary_no_done (s : StreamState) :
    Out.done ∉ (turnBoundary s).2 := by
  rw [turnBoundary]
  simp only [List.mem_append, not_or]
  refine ⟨flushThinking_no_done s, ?_⟩
  split <;> simp

theorem toolsStep_no_done (s : StreamState) (tcs : List ToolCall) :
    Out.done ∉ (toolsStep s tcs).2 := by
  rw [toolsStep]
  split
  · simp
  · exact processTools_no_done tcs _ _

theorem contentStep_no_done (s : StreamState) (text : String) (ts : ℚ) :
    Out.done ∉ (contentStep s text ts).2 := by
  simp only [contentStep]
  by_cases hg : 0 < s.lastContentTs ∧ turnGapSeconds < ts - s.lastContentTs
  · simp only [if_pos hg]
    split
    · simp only [List.mem_append, not_or]
      exact ⟨turnBoundary_no_done s, by simp⟩
    · exact turnBoundary_no_done s
  · simp only [if_neg hg]
    split
    · simp
    · simp

theorem finishStep_no_done (s : StreamState) (finishReason : Option String) :
    Out.done ∉ (finishStep s finishReason).2 := by
  simp only [finishStep]
  split
  · exact turnBoundary_no_done s
  · split
    · split
      · exact flushThinking_no_done s
      · simp only [List.mem_append, not_or]
        refine ⟨flushThinking_no_done s, ?_⟩
        split <;> simp
    · simp

theorem processLine_term_iff (msgCount : ℕ)
    (wsBefore wsAfter : List (String × ℕ × ℚ)) (s : StreamState) (l : UpLine) :
    (processLine msgCount wsBefore wsAfter s l).2.2 = true ↔ l = UpLine.done := by
  cases l <;> simp [processLine]

theorem processLine_done_ends (msgCount : ℕ)
    (wsBefore wsAfter : List (String × ℕ × ℚ)) (s : StreamState) :
    endsWithDone (processLine msgCount wsBefore wsAfter s UpLine.done).2.1 := by
  have h3 : ∀ a b c : List Out, endsWithDone (a ++ b ++ c ++ [Out.done]) :=
    fun a b c => ⟨a ++ b ++ c, rfl⟩
  dsimp only [processLine]
  exact h3 _ _ _

theorem processLine_no_done (msgCount : ℕ)
    (wsBefore wsAfter : List (String × ℕ × ℚ)) (s : StreamState) (l : UpLine)
    (h : l ≠ UpLine.done) :
    Out.done ∉ (processLine msgCount wsBefore wsAfter s l).2.1 := by
  cases l with
  | done => exact absurd rfl h
  | blank => simp [processLine]
  | nonData raw => simp [processLine]
  | badJson raw => simp [processLine]
  | noChoices raw => simp [processLine]
  | chunk delta finishReason ts =>
    rw [processLine]
    simp only [List.mem_append, not_or]
    refine ⟨toolsStep_no_done _ _, ?_, finishStep_no_done _ _⟩
    cases delta.content with
    | none => simp
    | some text =>
      dsimp only
      split
      · simp
      · exact contentStep_no_done _ _ _

theorem runLines_term_iff (msgCount : ℕ)
    (wsBefore wsAfter : List (String × ℕ × ℚ)) :
    ∀ (lines : List UpLine) (s : StreamState),
      (runLines msgCount wsBefore wsAfter s lines).2.2 = true
        ↔ UpLine.done ∈ lines := by
  intro lines
  induction lines with
  | nil => intro s; simp [runLines]
  | cons l rest ih =>
    intro s
    rw [runLines]
    dsimp only
    by_cases hl : l = UpLine.done
    · subst hl
      rw [if_pos ((processLine_term_iff _ _ _ _ _).mpr rfl)]
      simp [(processLine_term_iff msgCount wsBefore wsAfter s UpLine.done).mpr rfl]
    · rw [if_neg (by
        intro hc
        exact hl ((processLine_term_iff _ _ _ _ _).mp hc))]
      have hl2 : ¬ UpLine.done = l := fun hc => hl hc.symm
      simp [ih, hl2]

theorem runLines_term_ends (msgCount : ℕ)
    (wsBefore wsAfter : List (String × ℕ × ℚ)) :
    ∀ (lines : List UpLine) (s : StreamState),
      (runLines msgCount wsBefore wsAfter s lines).2.2 = true →
      endsWithDone (runLines msgCount wsBefore wsAfter s lines).2.1 := by
  intro lines
  induction lines with
  | nil => intro s h; simp [runLines] at h
  | cons l rest ih =>
    intro s h
    rw [runLines] at h ⊢
    dsimp only at h ⊢
    by_cases ht : (processLine msgCount wsBefore wsAfter s l).2.2 = true
    · rw [if_pos ht] at h ⊢
      have hl : l = UpLine.done := (processLine_term_iff _ _ _ _ _).mp ht
      subst hl
      exact processLine_done_ends _ _ _ _
    · rw [if_neg ht] at h ⊢
      exact endsWithDone_append_right (ih _ h)

theorem runLines_no_done (msgCount : ℕ)
    (wsBefore wsAfter : List (String × ℕ × ℚ)) :
    ∀ (lines : List UpLine) (s : StreamState),
      (runLines msgCount wsBefore wsAfter s lines).2.2 = false →
      Out.done ∉ (runLines msgCount wsBefore wsAfter s lines).2.1 := by
  intro lines
  induction lines with
  | nil => intro s _; simp [runLines]
  | cons l rest ih =>
    intro s h
    rw [runLines] at h ⊢
    dsimp only at h ⊢
    by_cases ht : (processLine msgCount wsBefore wsAfter s l).2.2 = true
    · rw [if_pos ht] at h
      exact absurd ht (by simp [h])
    · rw [if_neg ht] at h ⊢
      have hl : l ≠ UpLine.done := by
        intro hc
        exact ht ((processLine_term_iff _ _ _ _ _).mpr hc)
      simp only [List.mem_append, not_or]
      exact ⟨processLine_no_done _ _ _ _ _ hl, ih _ h⟩

/-- C4 (amended): the SSE stream emitted to the client ends with a
final `data: [DONE]` sentinel exactly when some processed upstream
attempt delivered a `data: [DONE]` line or both attempts raised; when
an attempt's response body ends gracefully **without** an upstream
`[DONE]`, the generator returns with no sentinel emitted. -/
theorem c4_termination_contract (msgCount : ℕ)
    (wsBefore wsAfter : List (String × ℕ × ℚ)) (a1 a2 : Attempt) :
    endsWithDone (proxy_chat_stream_core msgCount wsBefore wsAfter a1 a2).1
      ↔ (UpLine.done ∈ a1.lines
          ∨ (a1.exc.isSome ∧ UpLine.done ∉ a1.lines
              ∧ (UpLine.done ∈ a2.lines ∨ a2.exc.isSome))) := by
  rw [proxy_chat_stream_core]
  by_cases h1 : (runLines msgCount wsBefore wsAfter initStreamState a1.lines).2.2 = true
  · rw [if_pos h1]
    have hmem := (runLines_term_iff msgCount wsBefore wsAfter a1.lines
      initStreamState).mp h1
    simp only [hmem, true_or, iff_true]
    exact runLines_term_ends _ _ _ _ _ h1
  · rw [if_neg h1]
    have h1f : (runLines msgCount wsBefore wsAfter initStreamState a1.lines).2.2
        = false := by
      simpa using h1
    have hnmem : UpLine.done ∉ a1.lines := by
      intro hc
      exact h1 ((runLines_term_iff _ _ _ _ _).mpr hc)
    have hno1 := runLines_no_done msgCount wsBefore wsAfter a1.lines
      initStreamState h1f
    cases hexc1 : a1.exc with
    | none =>
      simp only [hexc1, Option.isSome_none, Bool.false_eq_true, false_and,
        or_false]
      constructor
      · intro h
        exact absurd (endsWithDone_mem h) hno1
      · intro h
        exact absurd h hnmem
    | some e1 =>
      dsimp only
      by_cases h2 : (runLines msgCount wsBefore wsAfter
          (runLines msgCount wsBefore wsAfter initStreamState a1.lines).1
          a2.lines).2.2 = true
      · rw [if_pos h2]
        have hmem2 := (runLines_term_iff msgCount wsBefore wsAfter a2.lines _).mp h2
        simp only [hexc1, Option.isSome_some, true_and, hnmem, not_false_iff,
          hmem2, true_or, and_true, or_true, iff_true]
        exact endsWithDone_append_right (runLines_term_ends _ _ _ _ _ h2)
      · rw [if_neg h2]
        have h2f : (runLines msgCount wsBefore wsAfter
            (runLines msgCount wsBefore wsAfter initStreamState a1.lines).1
            a2.lines).2.2 = false := by
          simpa using h2
        have hnmem2 : UpLine.done ∉ a2.lines := by
          intro hc
          exact h2 ((runLines_term_iff _ _ _ _ _).mpr hc)
        have hno2 := runLines_no_done msgCount wsBefore wsAfter a2.lines _ h2f
        cases hexc2 : a2.exc with
        | none =>
          dsimp only
          constructor
          · intro h
            rcases List.mem_append.mp (endsWithDone_mem h) with hc | hc
            · exact absurd hc hno1
            · exact absurd hc hno2
          · rintro (h | ⟨_, _, h2m | h2s⟩)
            · exact absurd h hnmem
            · exact absurd h2m hnmem2
            · simp at h2s
        | some e2 =>
          dsimp only
          constructor
          · intro _
            exact Or.inr ⟨rfl, hnmem, Or.inr rfl⟩
          · intro _
            have htail : ∀ (xs : List Out) (msg : String),
                endsWithDone (xs ++ [Out.content msg false, Out.done]) :=
              fun xs msg => ⟨xs ++ [Out.content msg false],
                by simp [List.append_assoc]⟩
            exact htail _ _

theorem c4_counterexample :
    ¬ endsWithDone (proxy_chat_stream_core 2 [] []
        ⟨[UpLine.chunk ⟨[], some "hi"⟩ none 1], none⟩ ⟨[], none⟩).1
    ∧ (proxy_chat_stream_core 2 [] []
        ⟨[UpLine.chunk ⟨[], some "hi"⟩ none 1], none⟩ ⟨[], none⟩).1 = [] := by
  have hs : contentStep ⟨[], [], false, 0, 1, 1, [], 0⟩ "hi" 1
      = (⟨[], ["hi"], false, 1, 1, 1, ["hi"], 2⟩, []) := by
    rw [contentStep_of_not_gap ⟨[], [], false, 0, 1, 1, [], 0⟩ "hi" 1
      (by norm_num [turnGapSeconds]) (by decide)]
    rfl
  have hp : processLine 2 [] [] ⟨[], [], false, 0, 1, 0, [], 0⟩
      (.chunk ⟨[], some "hi"⟩ none 1)
      = (⟨[], ["hi"], false, 1, 1, 1, ["hi"], 2⟩, [], false) := by
    simp [processLine, toolsStep, finishStep, hs]
  have hout : (proxy_chat_stream_core 2 [] []
      ⟨[UpLine.chunk ⟨[], some "hi"⟩ none 1], none⟩ ⟨[], none⟩).1 = [] := by
    simp only [proxy_chat_stream_core, runLines, initStreamState, hp]
    rfl
  refine ⟨?_, hout⟩
  rw [hout]
  rintro ⟨pre, hpre⟩
  exact absurd hpre (by simp)

end ClawBowl
